import Mathlib

/-!
Verification development for the `embedded-hal-i2c` repository: a shallow
embedding of the I2C target contract (`embedded-hal-i2c/src/lib.rs`) and of the
in-process simulator (`simulator/src/target.rs`, `simulator/src/controller.rs`),
together with theorems checking the specification's claims against the code.

Byte values are modelled as `Nat`; `Vec<u8>`/slices as `List Nat`. Fallible or
panicking Rust code is modelled with `Option` (a `none` result corresponds to a
panic or to blocking forever on the channel). Rust `Drop` impls are modelled as
explicit `drop` functions, invoked exactly where Rust would run them.
-/

/-- An I2C slave address, 7 or 10 bit (`AnyAddress` in `embedded-hal-i2c/src/lib.rs`). -/
inductive AnyAddress
  | Seven (v : Nat)
  | Ten (v : Nat)
deriving DecidableEq, Repr

/-- Source of a NACK (`NoAcknowledgeSource` from `embedded-hal`). -/
inductive NoAcknowledgeSource
  | Address
  | Data
  | Unknown
deriving DecidableEq, Repr

/-- Error kind surfaced through the controller side (`ErrorKind` from `embedded-hal`). -/
inductive ErrorKind
  | noAcknowledge (src : NoAcknowledgeSource)
  | other
deriving DecidableEq, Repr

/-- Modelled from the spec (section 4.5) and the uses in `target.rs` /
`controller.rs`: the final-design `SimOp` held by a transaction descriptor. The
final-design `lib.rs` that declares it is not under `src/` (the `lib.rs` present
there is an earlier iteration of the simulator); only its users are. -/
inductive SimOp
  | Read (buf : List Nat)
  | Write (buf : List Nat)
deriving DecidableEq, Repr

/-- Modelled from the spec (section 4.5): the transaction descriptor
`SimTransaction { address, actions }` of the final-design simulator `lib.rs`,
which is not under `src/`. -/
structure SimTransaction where
  address : AnyAddress
  actions : List SimOp
deriving DecidableEq, Repr

/-- Modelled from the spec (section 4.5): `PartialTransaction { descriptor,
current_op_index, responder }` of the final-design simulator `lib.rs`, which is
not under `src/`. The single-shot responder is modelled by the `Response` values
emitted by the operations below. -/
structure PartialTransaction where
  transaction : SimTransaction
  current_op : Nat
deriving DecidableEq, Repr

/-- `PartialTransaction::new(transaction, sender)` with `current_op = 0`. -/
def PartialTransaction.new (t : SimTransaction) : PartialTransaction :=
  { transaction := t, current_op := 0 }

/-- `PartialTransaction::current` / `current_mut`: the op at `current_op`, if any. -/
def PartialTransaction.current (p : PartialTransaction) : Option SimOp :=
  p.transaction.actions[p.current_op]?

/-- A value sent back on a transaction's one-shot responder channel:
`Result<SimTransaction, ErrorKind>`. -/
abbrev Response := Except ErrorKind SimTransaction

/-- State of the simulator target half (`SimTarget` in `simulator/src/target.rs`).
The `from_controller` receiver is passed separately as a pending queue. -/
structure SimTarget where
  current_transaction : Option PartialTransaction
  need_to_report_deselect : Bool
deriving DecidableEq, Repr

/-- `SimTarget::nak` (`target.rs` lines 32-43): take the current transaction
(panic if none), assert the deselect flag is clear, set it, and send
`Err(NoAcknowledge(src))` on the responder. -/
def SimTarget.nak (s : SimTarget) (src : NoAcknowledgeSource) :
    Option (SimTarget × Response) :=
  match s.current_transaction with
  | none => none
  | some _ =>
    if s.need_to_report_deselect then none
    else some ({ current_transaction := none, need_to_report_deselect := true },
               Except.error (ErrorKind.noAcknowledge src))

/-- `SimTarget::next` (`target.rs` lines 45-51): advance `current_op` by one
(panic if there is no transaction). -/
def SimTarget.next (s : SimTarget) : Option SimTarget :=
  match s.current_transaction with
  | none => none
  | some p =>
    some { s with current_transaction := some { p with current_op := p.current_op + 1 } }

/-- The op the current transaction points at, if any (used by the handlers'
`current_op` / `current_op_mut` helpers). -/
def SimTarget.currentOp (s : SimTarget) : Option SimOp :=
  s.current_transaction.bind PartialTransaction.current

/-- Replace the op the current transaction points at (models mutation through
`current_op_mut`). Leaves the state unchanged when there is no transaction; all
uses are guarded by a successful `currentOp` lookup. -/
def SimTarget.setCurrentOp (s : SimTarget) (op : SimOp) : SimTarget :=
  match s.current_transaction with
  | none => s
  | some p =>
    { s with
      current_transaction := some
        { p with transaction :=
          { p.transaction with actions := p.transaction.actions.set p.current_op op } } }

/-- Overwrite `dst` starting at offset `k` with bytes from `src`, stopping at
the end of either list: models `dst[k..][..len].copy_from_slice(&src[..len])`
with `len = min(dst.len() - k, src.len())`. -/
def writeAt : List Nat → Nat → List Nat → List Nat
  | [], _, _ => []
  | d :: dst, 0, [] => d :: dst
  | _ :: dst, 0, c :: src => c :: writeAt dst 0 src
  | d :: dst, k + 1, src => d :: writeAt dst k src

/-- Transaction yielded by `listen` (`Transaction<R, W>` in
`embedded-hal-i2c/src/lib.rs`). -/
inductive Transaction (R W : Type)
  | Deselect
  | Read (address : AnyAddress) (handler : R)
  | Write (address : AnyAddress) (handler : W)
deriving DecidableEq, Repr

/-- Result of partially handling a read (`ReadResult<R>`). -/
inductive ReadResult (R : Type)
  | Partial (handler : R)
  | Complete (n : Nat)
deriving DecidableEq, Repr

/-- Result of partially handling a write (`WriteResult<W>`). -/
inductive WriteResult (W : Type)
  | Partial (handler : W)
  | Complete (n : Nat)
deriving DecidableEq, Repr

/-- Read transaction handler for `SimTarget` (`OnRead` in `target.rs`): the
`&mut SimTarget` borrow is passed explicitly to each operation. -/
structure OnRead where
  bytes_filled : Nat
  did_start : Bool
deriving DecidableEq, Repr

/-- The overrun fill byte `OnRead::FILL`. -/
def OnRead.FILL : Nat := 0x2a

/-- `AsyncReadTransaction::handle_part` for `OnRead` (`target.rs` lines 152-169).
A `Complete` return drops `self` inside the callee, which (with `did_start`
set) fills the now-empty remainder and advances to the next op. -/
def OnRead.handle_part (s : SimTarget) (h : OnRead) (buffer : List Nat) :
    Option (ReadResult OnRead × SimTarget) :=
  if buffer = [] then some (ReadResult.Partial h, s)
  else
    match s.currentOp with
    | some (SimOp.Read buf) =>
      if h.bytes_filled ≤ buf.length then
        let len := min (buf.length - h.bytes_filled) buffer.length
        let s' := s.setCurrentOp (SimOp.Read (writeAt buf h.bytes_filled buffer))
        if buf.length - (h.bytes_filled + len) = 0 then
          (s'.next).map fun s2 => (ReadResult.Complete len, s2)
        else
          some (ReadResult.Partial { bytes_filled := h.bytes_filled + len, did_start := true }, s')
      else none
    | _ => none

/-- `Drop for OnRead` (`target.rs` lines 138-147): a never-started handler NACKs
the address; a started one fills the remaining read with `FILL` and advances. -/
def OnRead.drop (s : SimTarget) (h : OnRead) : Option (SimTarget × List Response) :=
  if h.did_start = false then
    (s.nak NoAcknowledgeSource.Address).map fun (s', r) => (s', [r])
  else
    match s.currentOp with
    | some (SimOp.Read buf) =>
      if h.bytes_filled ≤ buf.length then
        let filled := buf.take h.bytes_filled ++
          List.replicate (buf.length - h.bytes_filled) OnRead.FILL
        ((s.setCurrentOp (SimOp.Read filled)).next).map fun s' => (s', [])
      else none
    | _ => none

/-- Write transaction handler for `SimTarget` (`OnWrite` in `target.rs`). -/
structure OnWrite where
  bytes_read : Nat
  did_start : Bool
deriving DecidableEq, Repr

/-- `AsyncWriteTransaction::handle_part` for `OnWrite` (`target.rs` lines
225-248). Returns the filled user buffer alongside the result. A `Complete`
return advances to the next op and disarms the handler (`mem::forget`), so its
drop glue does not run. -/
def OnWrite.handle_part (s : SimTarget) (h : OnWrite) (buffer : List Nat) :
    Option (WriteResult OnWrite × List Nat × SimTarget) :=
  if buffer = [] then some (WriteResult.Partial h, buffer, s)
  else
    match s.currentOp with
    | some (SimOp.Write wbuf) =>
      if h.bytes_read ≤ wbuf.length then
        let source := wbuf.drop h.bytes_read
        let len := min source.length buffer.length
        let buffer' := writeAt buffer 0 (source.take len)
        if source.length - len = 0 then
          if buffer.length = len then
            some (WriteResult.Partial { bytes_read := h.bytes_read + len, did_start := true },
                  buffer', s)
          else
            (s.next).map fun s' => (WriteResult.Complete len, buffer', s')
        else
          some (WriteResult.Partial { bytes_read := h.bytes_read + len, did_start := true },
                buffer', s)
      else none
    | _ => none

/-- `Drop for OnWrite` (`target.rs` lines 212-220): a never-started handler
NACKs the address; a started one always NACKs the data. -/
def OnWrite.drop (s : SimTarget) (h : OnWrite) : Option (SimTarget × List Response) :=
  if h.did_start = false then
    (s.nak NoAcknowledgeSource.Address).map fun (s', r) => (s', [r])
  else
    (s.nak NoAcknowledgeSource.Data).map fun (s', r) => (s', [r])

/-- Remaining bytes of the current read op past `bytes_filled` (used to bound
the default `handle_complete` loop). -/
def SimTarget.readRemaining (s : SimTarget) (h : OnRead) : Nat :=
  match s.currentOp with
  | some (SimOp.Read buf) => buf.length - h.bytes_filled
  | _ => 0

/-- The loop of the default `AsyncReadTransaction::handle_complete`
(`embedded-hal-i2c/src/lib.rs` lines 483-499): keep offering the overrun
character one byte at a time until the master stops. The Rust loop terminates
because every `Partial` iteration consumes one remaining byte of the read op;
`fuel` is an explicit upper bound on the iteration count, threaded to make the
recursion structural, and is instantiated at `readRemaining + 1`, which the
theorems below show is never exhausted. -/
def readCompleteLoopFuel : Nat → SimTarget → OnRead → Nat → Nat → Option (Nat × SimTarget)
  | 0, _, _, _, _ => none
  | fuel + 1, s, h, ovc, total =>
    match OnRead.handle_part s h [ovc] with
    | none => none
    | some (ReadResult.Complete extra, s') => some (total + extra, s')
    | some (ReadResult.Partial h', s') => readCompleteLoopFuel fuel s' h' ovc (total + 1)

/-- Default `AsyncReadTransaction::handle_complete` (`embedded-hal-i2c/src/lib.rs`
lines 483-499), instantiated at the simulator's `OnRead`. -/
def OnRead.handle_complete (s : SimTarget) (h : OnRead) (buffer : List Nat) (ovc : Nat) :
    Option (Nat × SimTarget) :=
  match OnRead.handle_part s h buffer with
  | none => none
  | some (ReadResult.Complete size, s') => some (size, s')
  | some (ReadResult.Partial h', s') =>
    readCompleteLoopFuel (s'.readRemaining h' + 1) s' h' ovc buffer.length

/-- Default `AsyncWriteTransaction::handle_complete` (`embedded-hal-i2c/src/lib.rs`
lines 518-527), instantiated at the simulator's `OnWrite`: one `handle_part`,
then on `Partial` a second `handle_part` with a one-byte scratch buffer whose
result is discarded — dropping a `Partial` handler there runs `OnWrite`'s drop
glue (a NACK). Returns the count, the filled user buffer, the new target state
and the emitted responses. -/
def OnWrite.handle_complete (s : SimTarget) (h : OnWrite) (buffer : List Nat) :
    Option (Nat × List Nat × SimTarget × List Response) :=
  match OnWrite.handle_part s h buffer with
  | none => none
  | some (WriteResult.Complete size, buffer', s') => some (size, buffer', s', [])
  | some (WriteResult.Partial h', buffer', s') =>
    match OnWrite.handle_part s' h' [0] with
    | none => none
    | some (WriteResult.Complete _, _, s2) => some (buffer.length, buffer', s2, [])
    | some (WriteResult.Partial h2, _, s2) =>
      (OnWrite.drop s2 h2).map fun (s3, rs) => (buffer.length, buffer', s3, rs)

/-- `AsyncI2cTarget::listen` for `SimTarget` (`target.rs` lines 59-96), split
out: inspect the current transaction (which must exist). Past the last op the
descriptor is sent back `Ok` and `Deselect` is yielded; otherwise a fresh
handler is yielded for the current op. -/
def SimTarget.listenInspect (s : SimTarget) (pending : List SimTransaction) :
    Option (Transaction OnRead OnWrite × SimTarget × List SimTransaction × List Response) :=
  match s.current_transaction with
  | none => none
  | some p =>
    match p.current with
    | none =>
      if p.current_op = p.transaction.actions.length then
        some (Transaction.Deselect, { s with current_transaction := none }, pending,
              [Except.ok p.transaction])
      else none
    | some (SimOp.Read _) =>
      some (Transaction.Read p.transaction.address { bytes_filled := 0, did_start := false },
            s, pending, [])
    | some (SimOp.Write _) =>
      some (Transaction.Write p.transaction.address { bytes_read := 0, did_start := false },
            s, pending, [])

/-- `AsyncI2cTarget::listen` for `SimTarget` (`target.rs` lines 59-96). The
channel receiver is modelled by the `pending` queue; an empty queue with no
current transaction blocks (`none`). -/
def SimTarget.listen (s : SimTarget) (pending : List SimTransaction) :
    Option (Transaction OnRead OnWrite × SimTarget × List SimTransaction × List Response) :=
  if s.need_to_report_deselect then
    some (Transaction.Deselect, { s with need_to_report_deselect := false }, pending, [])
  else
    match s.current_transaction with
    | none =>
      match pending with
      | [] => none
      | t :: rest =>
        SimTarget.listenInspect
          { s with current_transaction := some (PartialTransaction.new t) } rest
    | some _ => SimTarget.listenInspect s pending

/-- Whether a live handler borrows the target, and which one. -/
inductive Phase
  | idle
  | reading (h : OnRead)
  | writing (h : OnWrite)
deriving DecidableEq, Repr

/-- A configuration of the target half: the pending transaction queue, the
target state, and the live-handler phase. -/
structure Config where
  pending : List SimTransaction
  target : SimTarget
  phase : Phase
deriving DecidableEq, Repr

/-- Observable result of a read `handle_part` (handler state elided). -/
inductive ReadResultEv
  | Partial
  | Complete (n : Nat)
deriving DecidableEq, Repr

/-- Observable result of a write `handle_part`. -/
inductive WriteResultEv
  | Partial (buffer : List Nat)
  | Complete (n : Nat) (buffer : List Nat)
deriving DecidableEq, Repr

instance : DecidableEq Response := fun a b =>
  match a, b with
  | Except.error e₁, Except.error e₂ =>
    if h : e₁ = e₂ then isTrue (by rw [h]) else isFalse (by intro hc; cases hc; exact h rfl)
  | Except.ok t₁, Except.ok t₂ =>
    if h : t₁ = t₂ then isTrue (by rw [h]) else isFalse (by intro hc; cases hc; exact h rfl)
  | Except.error _, Except.ok _ => isFalse (by intro hc; cases hc)
  | Except.ok _, Except.error _ => isFalse (by intro hc; cases hc)

/-- An observable event of the target half. -/
inductive Event
  | yielded (t : Transaction OnRead OnWrite)
  | response (r : Response)
  | readPartRes (r : ReadResultEv)
  | writePartRes (r : WriteResultEv)
  | readCompleteRes (n : Nat)
  | writeCompleteRes (n : Nat) (buffer : List Nat)
deriving DecidableEq, Repr

/-- An action the target-side user can take. -/
inductive Act
  | listen
  | readPart (buffer : List Nat)
  | readComplete (buffer : List Nat) (ovc : Nat)
  | writePart (buffer : List Nat)
  | writeComplete (buffer : List Nat)
  | dropHandler
deriving DecidableEq, Repr

/-- The phase resulting from a `listen` yield: a fresh handler borrows the target. -/
def phaseOfYield : Transaction OnRead OnWrite → Phase
  | Transaction.Deselect => Phase.idle
  | Transaction.Read _ h => Phase.reading h
  | Transaction.Write _ h => Phase.writing h

/-- One target-side step: runs the requested operation when it is legal in the
current phase (`none` models a panic, an illegal call, or blocking forever). -/
def step (c : Config) : Act → Option (Config × List Event)
  | Act.listen =>
    match c.phase with
    | Phase.idle =>
      (SimTarget.listen c.target c.pending).map fun (y, t', pending', rs) =>
        ({ pending := pending', target := t', phase := phaseOfYield y },
         rs.map Event.response ++ [Event.yielded y])
    | _ => none
  | Act.readPart buffer =>
    match c.phase with
    | Phase.reading h =>
      (OnRead.handle_part c.target h buffer).map fun (res, t') =>
        match res with
        | ReadResult.Partial h' =>
          ({ c with target := t', phase := Phase.reading h' },
           [Event.readPartRes ReadResultEv.Partial])
        | ReadResult.Complete n =>
          ({ c with target := t', phase := Phase.idle },
           [Event.readPartRes (ReadResultEv.Complete n)])
    | _ => none
  | Act.readComplete buffer ovc =>
    match c.phase with
    | Phase.reading h =>
      (OnRead.handle_complete c.target h buffer ovc).map fun (n, t') =>
        ({ c with target := t', phase := Phase.idle }, [Event.readCompleteRes n])
    | _ => none
  | Act.writePart buffer =>
    match c.phase with
    | Phase.writing h =>
      (OnWrite.handle_part c.target h buffer).map fun (res, buffer', t') =>
        match res with
        | WriteResult.Partial h' =>
          ({ c with target := t', phase := Phase.writing h' },
           [Event.writePartRes (WriteResultEv.Partial buffer')])
        | WriteResult.Complete n =>
          ({ c with target := t', phase := Phase.idle },
           [Event.writePartRes (WriteResultEv.Complete n buffer')])
    | _ => none
  | Act.writeComplete buffer =>
    match c.phase with
    | Phase.writing h =>
      (OnWrite.handle_complete c.target h buffer).map fun (n, buffer', t', rs) =>
        ({ c with target := t', phase := Phase.idle },
         rs.map Event.response ++ [Event.writeCompleteRes n buffer'])
    | _ => none
  | Act.dropHandler =>
    match c.phase with
    | Phase.reading h =>
      (OnRead.drop c.target h).map fun (t', rs) =>
        ({ c with target := t', phase := Phase.idle }, rs.map Event.response)
    | Phase.writing h =>
      (OnWrite.drop c.target h).map fun (t', rs) =>
        ({ c with target := t', phase := Phase.idle }, rs.map Event.response)
    | Phase.idle => none

/-- Run a sequence of target-side actions, collecting the emitted events. -/
def run : Config → List Act → Option (Config × List Event)
  | c, [] => some (c, [])
  | c, a :: acts =>
    match step c a with
    | none => none
    | some (c', evs) =>
      match run c' acts with
      | none => none
      | some (c2, evs') => some (c2, evs ++ evs')

/-- The initial configuration of the target half with a queue of incoming
transactions. -/
def initConfig (pending : List SimTransaction) : Config :=
  { pending := pending,
    target := { current_transaction := none, need_to_report_deselect := false },
    phase := Phase.idle }

/-- A controller-side operation (`embedded_hal::i2c::Operation`): a read buffer
or bytes to write. -/
inductive Operation
  | Read (buffer : List Nat)
  | Write (bytes : List Nat)
deriving DecidableEq, Repr

/-- `SimController::send_transaction` (`controller.rs` lines 33-53): build the
descriptor, zero-filling read buffers. -/
def sendTransaction (address : AnyAddress) (operations : List Operation) : SimTransaction :=
  { address := address,
    actions := operations.map fun op =>
      match op with
      | Operation.Read r => SimOp.Read (List.replicate r.length 0)
      | Operation.Write w => SimOp.Write w }

/-- `SimTransaction::copy_to_ops` (`controller.rs` lines 56-69): copy filled
read bytes back into the caller's operations; a read-length mismatch or an
op-kind mismatch is a panic (`none`). The `zip` stops at the shorter list. -/
def copy_to_ops : List Operation → List SimOp → Option (List Operation)
  | ops, [] => some ops
  | [], _ :: _ => some []
  | Operation.Read buf :: ops, SimOp.Read response :: actions =>
    if buf.length = response.length then
      (copy_to_ops ops actions).map fun rest => Operation.Read response :: rest
    else none
  | Operation.Write w :: ops, SimOp.Write _ :: actions =>
    (copy_to_ops ops actions).map fun rest => Operation.Write w :: rest
  | _ :: _, _ :: _ => none

/-- `AsyncI2cController::transaction` for `SimController` (`controller.rs` lines
76-87), given the response the target resolved the descriptor's responder with:
on `Ok` copy the filled reads back, on `Err` surface the error. -/
def SimController.transaction (operations : List Operation) (response : Response) :
    Option (Except ErrorKind (List Operation)) :=
  match response with
  | Except.error e => some (Except.error e)
  | Except.ok t => (copy_to_ops operations t.actions).map Except.ok

/-- The first response emitted in an event trace: with a single in-flight
transaction this is the resolution of its one-shot responder. -/
def firstResponse : List Event → Option Response
  | [] => none
  | Event.response r :: _ => some r
  | _ :: evs => firstResponse evs

/-- End-to-end run of one controller transaction against a target-side action
script: the controller sends the descriptor, the target runs the script, and
the first emitted response resolves the controller's pending call. -/
def runScenario (address : AnyAddress) (operations : List Operation) (acts : List Act) :
    Option (Except ErrorKind (List Operation) × Config × List Event) :=
  match run (initConfig [sendTransaction address operations]) acts with
  | none => none
  | some (c, evs) =>
    match firstResponse evs with
    | none => none
    | some r => (SimController.transaction operations r).map fun out => (out, c, evs)

/-- Iterate `OnRead::handle_part` with an empty buffer, threading the handler
through the `Partial` results. -/
def iterEmptyRead : Nat → SimTarget → OnRead → Option (OnRead × SimTarget)
  | 0, s, h => some (h, s)
  | n + 1, s, h =>
    match OnRead.handle_part s h [] with
    | some (ReadResult.Partial h', s') => iterEmptyRead n s' h'
    | _ => none

/-- Iterate `OnWrite::handle_part` with an empty buffer, threading the handler
through the `Partial` results. -/
def iterEmptyWrite : Nat → SimTarget → OnWrite → Option (OnWrite × SimTarget)
  | 0, s, h => some (h, s)
  | n + 1, s, h =>
    match OnWrite.handle_part s h [] with
    | some (WriteResult.Partial h', _, s') => iterEmptyWrite n s' h'
    | _ => none

lemma read_handle_part_nil (s : SimTarget) (h : OnRead) :
    OnRead.handle_part s h [] = some (ReadResult.Partial h, s) := rfl

lemma write_handle_part_nil (s : SimTarget) (h : OnWrite) :
    OnWrite.handle_part s h [] = some (WriteResult.Partial h, [], s) := rfl

lemma iterEmptyRead_const : ∀ (n : Nat) (s : SimTarget) (h : OnRead),
    iterEmptyRead n s h = some (h, s)
  | 0, _, _ => rfl
  | n + 1, s, h => by
    rw [iterEmptyRead, read_handle_part_nil]
    exact iterEmptyRead_const n s h

lemma iterEmptyWrite_const : ∀ (n : Nat) (s : SimTarget) (h : OnWrite),
    iterEmptyWrite n s h = some (h, s)
  | 0, _, _ => rfl
  | n + 1, s, h => by
    rw [iterEmptyWrite, write_handle_part_nil]
    exact iterEmptyWrite_const n s h

/-- C9: for every live read or write handler of the simulator, `handle_part`
with an empty buffer transfers no bytes and returns `Partial` carrying the
handler with all of its state (and the target state) unchanged; repeating the
call any number of times preserves that state. -/
theorem empty_handle_part_noop :
    ∀ (s : SimTarget) (hR : OnRead) (hW : OnWrite),
      OnRead.handle_part s hR [] = some (ReadResult.Partial hR, s) ∧
      OnWrite.handle_part s hW [] = some (WriteResult.Partial hW, [], s) ∧
      ∀ n : Nat, iterEmptyRead n s hR = some (hR, s) ∧ iterEmptyWrite n s hW = some (hW, s) :=
  fun s hR hW =>
    ⟨read_handle_part_nil s hR, write_handle_part_nil s hW,
     fun n => ⟨iterEmptyRead_const n s hR, iterEmptyWrite_const n s hW⟩⟩

lemma SimTarget.nak_of_live (s : SimTarget) (p : PartialTransaction)
    (src : NoAcknowledgeSource) (h1 : s.current_transaction = some p)
    (h2 : s.need_to_report_deselect = false) :
    s.nak src = some (⟨none, true⟩, Except.error (ErrorKind.noAcknowledge src)) := by
  simp [SimTarget.nak, h1, h2]

/-- C3: dropping a handler obtained from `listen` without calling any of its
methods causes the paired controller's `transaction` call to fail with
`NoAcknowledge(Address)`; dropping an actively-used write handler holding a
pending byte causes it to fail with `NoAcknowledge(Data)`. -/
theorem drop_handler_nack_ownership :
    (∀ (s : SimTarget) (p : PartialTransaction) (b : Nat),
      s.current_transaction = some p → s.need_to_report_deselect = false →
      OnRead.drop s ⟨b, false⟩ =
        some (⟨none, true⟩,
          [Except.error (ErrorKind.noAcknowledge NoAcknowledgeSource.Address)]) ∧
      OnWrite.drop s ⟨b, false⟩ =
        some (⟨none, true⟩,
          [Except.error (ErrorKind.noAcknowledge NoAcknowledgeSource.Address)]) ∧
      OnWrite.drop s ⟨b, true⟩ =
        some (⟨none, true⟩,
          [Except.error (ErrorKind.noAcknowledge NoAcknowledgeSource.Data)])) ∧
    (∀ (ops : List Operation) (e : ErrorKind),
      SimController.transaction ops (Except.error e) = some (Except.error e)) := by
  constructor
  · intro s p b h1 h2
    refine ⟨?_, ?_, ?_⟩ <;>
      simp [OnRead.drop, OnWrite.drop, SimTarget.nak_of_live s p _ h1 h2]
  · intro ops e
    rfl

/-- Witness for C3 at a concrete live target state. -/
theorem drop_handler_nack_ownership_witness :
    OnRead.drop ⟨some ⟨⟨AnyAddress.Seven 1, [SimOp.Read [0]]⟩, 0⟩, false⟩ ⟨0, false⟩ =
      some (⟨none, true⟩,
        [Except.error (ErrorKind.noAcknowledge NoAcknowledgeSource.Address)]) :=
  (drop_handler_nack_ownership.1 ⟨some ⟨⟨AnyAddress.Seven 1, [SimOp.Read [0]]⟩, 0⟩, false⟩
    ⟨⟨AnyAddress.Seven 1, [SimOp.Read [0]]⟩, 0⟩ 0 rfl rfl).1

/-- C1 (scenario S5): running `transaction(0x2a, [W[1], W[2], R 1, R 1, W[5], W[6]])`
through the simulator pair, the target's six listens yield write, write, read,
read, write, write in order; completing each op (supplying `[3]` and `[4]` on
the two reads) makes the controller's call return `Ok` with the two read
buffers `[3]` and `[4]`, and the seventh listen yields `Deselect`. -/
theorem s5_multi_op_transaction_end_to_end :
    runScenario (AnyAddress.Seven 0x2a)
      [Operation.Write [1], Operation.Write [2], Operation.Read [0], Operation.Read [0],
       Operation.Write [5], Operation.Write [6]]
      [Act.listen, Act.writeComplete [0], Act.listen, Act.writeComplete [0],
       Act.listen, Act.readPart [3], Act.listen, Act.readPart [4],
       Act.listen, Act.writeComplete [0], Act.listen, Act.writeComplete [0], Act.listen] =
    some (Except.ok
      [Operation.Write [1], Operation.Write [2], Operation.Read [3], Operation.Read [4],
       Operation.Write [5], Operation.Write [6]],
      ⟨[], ⟨none, false⟩, Phase.idle⟩,
      [Event.yielded (Transaction.Write (AnyAddress.Seven 0x2a) ⟨0, false⟩),
       Event.writeCompleteRes 1 [1],
       Event.yielded (Transaction.Write (AnyAddress.Seven 0x2a) ⟨0, false⟩),
       Event.writeCompleteRes 1 [2],
       Event.yielded (Transaction.Read (AnyAddress.Seven 0x2a) ⟨0, false⟩),
       Event.readPartRes (ReadResultEv.Complete 1),
       Event.yielded (Transaction.Read (AnyAddress.Seven 0x2a) ⟨0, false⟩),
       Event.readPartRes (ReadResultEv.Complete 1),
       Event.yielded (Transaction.Write (AnyAddress.Seven 0x2a) ⟨0, false⟩),
       Event.writeCompleteRes 1 [5],
       Event.yielded (Transaction.Write (AnyAddress.Seven 0x2a) ⟨0, false⟩),
       Event.writeCompleteRes 1 [6],
       Event.response (Except.ok ⟨AnyAddress.Seven 0x2a,
         [SimOp.Write [1], SimOp.Write [2], SimOp.Read [3], SimOp.Read [4],
          SimOp.Write [5], SimOp.Write [6]]⟩),
       Event.yielded Transaction.Deselect]) := by
  rfl

/-- C8 (scenario S3): the controller writes `[1,2,3,4]`, the target serves the
write with `handle_complete` on a 3-byte buffer: `handle_complete` returns 3
with the buffer holding the first three bytes, the controller's write fails
with `NoAcknowledge(Data)`, and the target's next listen yields `Deselect`. -/
theorem s3_data_nack_on_over_write :
    runScenario (AnyAddress.Seven 0x2a) [Operation.Write [1, 2, 3, 4]]
      [Act.listen, Act.writeComplete [0, 0, 0], Act.listen] =
    some (Except.error (ErrorKind.noAcknowledge NoAcknowledgeSource.Data),
      ⟨[], ⟨none, false⟩, Phase.idle⟩,
      [Event.yielded (Transaction.Write (AnyAddress.Seven 0x2a) ⟨0, false⟩),
       Event.response (Except.error (ErrorKind.noAcknowledge NoAcknowledgeSource.Data)),
       Event.writeCompleteRes 3 [1, 2, 3],
       Event.yielded Transaction.Deselect]) := by
  rfl

/-- C5 counterexample: a started `OnWrite` handler whose op payload is fully
consumed (controller wrote `[0,0]`, the handler's `handle_part` filled a 2-byte
buffer exactly, so no bytes remain) is released. The claim predicts the
simulator advances to the next op without NACKing; the code instead issues a
data NACK and discards the transaction. The state is reached by an actual run. -/
theorem onwrite_drop_no_advance_counterexample :
    (run (initConfig [⟨AnyAddress.Seven 0x2a, [SimOp.Write [0, 0]]⟩])
        [Act.listen, Act.writePart [0, 0]] =
      some (⟨[], ⟨some ⟨⟨AnyAddress.Seven 0x2a, [SimOp.Write [0, 0]]⟩, 0⟩, false⟩,
             Phase.writing ⟨2, true⟩⟩,
        [Event.yielded (Transaction.Write (AnyAddress.Seven 0x2a) ⟨0, false⟩),
         Event.writePartRes (WriteResultEv.Partial [0, 0])])) ∧
    (⟨(2 : Nat), true⟩ : OnWrite).did_start = true ∧
    (SimTarget.currentOp ⟨some ⟨⟨AnyAddress.Seven 0x2a, [SimOp.Write [0, 0]]⟩, 0⟩, false⟩ =
      some (SimOp.Write [0, 0])) ∧
    OnWrite.drop ⟨some ⟨⟨AnyAddress.Seven 0x2a, [SimOp.Write [0, 0]]⟩, 0⟩, false⟩ ⟨2, true⟩ =
      some (⟨none, true⟩,
        [Except.error (ErrorKind.noAcknowledge NoAcknowledgeSource.Data)]) ∧
    OnWrite.drop ⟨some ⟨⟨AnyAddress.Seven 0x2a, [SimOp.Write [0, 0]]⟩, 0⟩, false⟩ ⟨2, true⟩ ≠
      some (⟨some ⟨⟨AnyAddress.Seven 0x2a, [SimOp.Write [0, 0]]⟩, 1⟩, false⟩, []) := by
  refine ⟨by rfl, rfl, by rfl, by rfl, ?_⟩
  decide

/-- C5 amended: when an `OnWrite` handler is released, if no byte method was
invoked the address is NACKed; otherwise a data NACK is always issued, even
when no bytes remain in the current op's payload. Advancing to the next op
without a NACK happens only inside `handle_part` returning `Complete`, which
consumes the handler without running the release path. -/
theorem onwrite_release_rule_amended :
    ∀ (s : SimTarget) (p : PartialTransaction) (h : OnWrite),
      s.current_transaction = some p → s.need_to_report_deselect = false →
      OnWrite.drop s h =
        some (⟨none, true⟩,
          [Except.error (ErrorKind.noAcknowledge
            (if h.did_start then NoAcknowledgeSource.Data else NoAcknowledgeSource.Address))]) := by
  intro s p h h1 h2
  cases hd : h.did_start <;>
    simp [OnWrite.drop, hd, SimTarget.nak_of_live s p _ h1 h2]

/-- Witness for the amended C5 at a concrete live target state. -/
theorem onwrite_release_rule_amended_witness :
    OnWrite.drop ⟨some ⟨⟨AnyAddress.Seven 2, [SimOp.Write [7]]⟩, 0⟩, false⟩ ⟨1, true⟩ =
      some (⟨none, true⟩,
        [Except.error (ErrorKind.noAcknowledge NoAcknowledgeSource.Data)]) :=
  onwrite_release_rule_amended ⟨some ⟨⟨AnyAddress.Seven 2, [SimOp.Write [7]]⟩, 0⟩, false⟩
    ⟨⟨AnyAddress.Seven 2, [SimOp.Write [7]]⟩, 0⟩ ⟨1, true⟩ rfl rfl

/-- C10: an empty-buffer `handle_part` call does not commit the address ACK:
after any number of empty-buffer calls on a fresh handler, releasing it still
NACKs the address and the controller observes `NoAcknowledge(Address)`, exactly
as if no method had been called. -/
theorem empty_parts_do_not_commit_ack :
    (∀ (s : SimTarget) (p : PartialTransaction) (n : Nat),
      s.current_transaction = some p → s.need_to_report_deselect = false →
      ((iterEmptyRead n s ⟨0, false⟩).bind fun hs => OnRead.drop hs.2 hs.1) =
        some (⟨none, true⟩,
          [Except.error (ErrorKind.noAcknowledge NoAcknowledgeSource.Address)]) ∧
      ((iterEmptyWrite n s ⟨0, false⟩).bind fun hs => OnWrite.drop hs.2 hs.1) =
        some (⟨none, true⟩,
          [Except.error (ErrorKind.noAcknowledge NoAcknowledgeSource.Address)])) ∧
    (∀ ops : List Operation,
      SimController.transaction ops
          (Except.error (ErrorKind.noAcknowledge NoAcknowledgeSource.Address)) =
        some (Except.error (ErrorKind.noAcknowledge NoAcknowledgeSource.Address))) := by
  constructor
  · intro s p n h1 h2
    rw [iterEmptyRead_const, iterEmptyWrite_const]
    constructor <;>
      simp [OnRead.drop, OnWrite.drop, Option.bind,
        SimTarget.nak_of_live s p _ h1 h2]
  · intro ops
    rfl

/-- Witness for C10 at a concrete live target state and three empty calls. -/
theorem empty_parts_do_not_commit_ack_witness :
    ((iterEmptyRead 3 ⟨some ⟨⟨AnyAddress.Seven 5, [SimOp.Read [0, 0]]⟩, 0⟩, false⟩
        ⟨0, false⟩).bind fun hs => OnRead.drop hs.2 hs.1) =
      some (⟨none, true⟩,
        [Except.error (ErrorKind.noAcknowledge NoAcknowledgeSource.Address)]) :=
  (empty_parts_do_not_commit_ack.1 ⟨some ⟨⟨AnyAddress.Seven 5, [SimOp.Read [0, 0]]⟩, 0⟩, false⟩
    ⟨⟨AnyAddress.Seven 5, [SimOp.Read [0, 0]]⟩, 0⟩ 3 rfl rfl).1

/-- Expected-write transaction yield (`TransactionExpectWrite<R, W>` in
`embedded-hal-i2c/src/lib.rs`). -/
inductive TransactionExpectWrite (R W : Type)
  | ExpectedCompleteWrite (size : Nat)
  | ExpectedPartialWrite (handler : W)
  | Deselect
  | Read (address : AnyAddress) (handler : R)
  | Write (address : AnyAddress) (handler : W)
deriving DecidableEq, Repr

/-- `From<Transaction<R, W>> for TransactionExpectWrite<R, W>`
(`embedded-hal-i2c/src/lib.rs` lines 208-216). -/
def Transaction.intoExpectWrite {R W : Type} : Transaction R W → TransactionExpectWrite R W
  | Transaction.Deselect => TransactionExpectWrite.Deselect
  | Transaction.Read a h => TransactionExpectWrite.Read a h
  | Transaction.Write a h => TransactionExpectWrite.Write a h

/-- The provided default `AsyncI2cTarget::listen_expect_write`
(`embedded-hal-i2c/src/lib.rs` lines 423-441), abstracted over the target's
`listen` outcome and the write handler's `handle_part`: on a write to the
expected address the handler services the buffer, any other yield is converted
through `From`. Errors of either call propagate as with `?`. -/
def listen_expect_write {R W E : Type} (expected_address : AnyAddress)
    (listenResult : Except E (Transaction R W))
    (handlePart : W → Except E (WriteResult W)) : Except E (TransactionExpectWrite R W) :=
  match listenResult with
  | Except.error e => Except.error e
  | Except.ok (Transaction.Write address handler) =>
    if address = expected_address then
      match handlePart handler with
      | Except.error e => Except.error e
      | Except.ok (WriteResult.Complete size) =>
        Except.ok (TransactionExpectWrite.ExpectedCompleteWrite size)
      | Except.ok (WriteResult.Partial handler) =>
        Except.ok (TransactionExpectWrite.ExpectedPartialWrite handler)
    else Except.ok (Transaction.intoExpectWrite (Transaction.Write address handler))
  | Except.ok other => Except.ok (Transaction.intoExpectWrite other)

/-- C4: the default `listen_expect_write` behaves exactly as `listen` followed
by `handle_part(buffer)` when the incoming transaction is a write to the
expected address (`Complete(size)` maps to `ExpectedCompleteWrite`, `Partial`
to `ExpectedPartialWrite`); for any other outcome — read transaction,
mismatched address, or `Deselect` — it returns the equivalent base-yield
variant with the handler untouched. -/
theorem listen_expect_write_equiv :
    ∀ (R W E : Type) (exp : AnyAddress) (hp : W → Except E (WriteResult W)),
      (∀ e : E, @listen_expect_write R W E exp (Except.error e) hp = Except.error e) ∧
      (listen_expect_write exp (Except.ok (Transaction.Deselect : Transaction R W)) hp =
        Except.ok TransactionExpectWrite.Deselect) ∧
      (∀ (a : AnyAddress) (h : R),
        listen_expect_write exp (Except.ok (Transaction.Read a h : Transaction R W)) hp =
          Except.ok (TransactionExpectWrite.Read a h)) ∧
      (∀ (a : AnyAddress) (h : W), a ≠ exp →
        listen_expect_write exp (Except.ok (Transaction.Write a h : Transaction R W)) hp =
          Except.ok (TransactionExpectWrite.Write a h)) ∧
      (∀ h : W,
        listen_expect_write exp (Except.ok (Transaction.Write exp h : Transaction R W)) hp =
          match hp h with
          | Except.error e => Except.error e
          | Except.ok (WriteResult.Complete size) =>
            Except.ok (TransactionExpectWrite.ExpectedCompleteWrite size)
          | Except.ok (WriteResult.Partial handler) =>
            Except.ok (TransactionExpectWrite.ExpectedPartialWrite handler)) := by
  intro R W E exp hp
  refine ⟨fun e => rfl, rfl, fun a h => rfl, ?_, ?_⟩
  · intro a h hne
    simp [listen_expect_write, hne, Transaction.intoExpectWrite]
  · intro h
    simp [listen_expect_write]

/-- Witness for C4 at concrete types, addresses and handler behaviour,
covering both a mismatched-address fallback and a matching write. -/
theorem listen_expect_write_equiv_witness :
    (AnyAddress.Seven 3 ≠ AnyAddress.Seven 0x2a ∧
      @listen_expect_write Nat Nat Unit (AnyAddress.Seven 0x2a)
          (Except.ok (Transaction.Write (AnyAddress.Seven 3) (5 : Nat)))
          (fun _ => Except.ok (WriteResult.Complete 1)) =
        Except.ok (TransactionExpectWrite.Write (AnyAddress.Seven 3) 5)) ∧
    @listen_expect_write Nat Nat Unit (AnyAddress.Seven 0x2a)
        (Except.ok (Transaction.Write (AnyAddress.Seven 0x2a) (5 : Nat)))
        (fun _ => Except.ok (WriteResult.Complete 1)) =
      Except.ok (TransactionExpectWrite.ExpectedCompleteWrite 1) :=
  ⟨⟨by decide,
    (listen_expect_write_equiv Nat Nat Unit (AnyAddress.Seven 0x2a)
        (fun _ => Except.ok (WriteResult.Complete 1))).2.2.2.1
      (AnyAddress.Seven 3) 5 (by decide)⟩,
   (listen_expect_write_equiv Nat Nat Unit (AnyAddress.Seven 0x2a)
        (fun _ => Except.ok (WriteResult.Complete 1))).2.2.2.2 5⟩

/-- Modelled from the spec (sections 4.6, 6): the final-design factory
`simulator()` and the bounded channel it creates are not under `src/` (the
`lib.rs` present there is an earlier iteration; only the factory's callers and
the two halves are). Per the spec the factory links the controller half and the
target half with a single bounded channel of `PartialTransaction`s. -/
structure SimChannel where
  capacity : Nat
  queue : List SimTransaction
deriving DecidableEq, Repr

/-- Modelled from the spec: the channel as created by `simulator()`, with
capacity 1 and initially empty. -/
def simulatorChannel : SimChannel :=
  { capacity := 1, queue := [] }

/-- `Sender::try_send` on the bounded channel: enqueue if below capacity,
fail otherwise. -/
def SimChannel.trySend (ch : SimChannel) (t : SimTransaction) : Option SimChannel :=
  if ch.queue.length < ch.capacity then some { ch with queue := ch.queue ++ [t] }
  else none

/-- C6: the simulator factory creates the channel linking the two halves with
capacity 1, so at most one controller transaction is in flight: a successful
send is only possible from an empty queue, leaves exactly one queued
transaction, and a second send fails until the target receives. -/
theorem simulator_channel_capacity_one :
    simulatorChannel.capacity = 1 ∧
    (∀ (ch ch' : SimChannel) (t : SimTransaction),
      ch.capacity = 1 → ch.trySend t = some ch' →
      ch.queue = [] ∧ ch'.queue.length = 1 ∧ ∀ t2, ch'.trySend t2 = none) := by
  refine ⟨rfl, ?_⟩
  intro ch ch' t hcap hsend
  unfold SimChannel.trySend at hsend
  split at hsend
  · next hlt =>
    cases hsend
    have hq : ch.queue = [] := by
      cases hq : ch.queue with
      | nil => rfl
      | cons a l => rw [hcap, hq] at hlt; simp at hlt
    refine ⟨hq, by simp [hq], ?_⟩
    intro t2
    unfold SimChannel.trySend
    simp [hq, hcap]
  · exact absurd hsend (by simp)

/-- Witness for C6 at a concrete send on the factory's channel. -/
theorem simulator_channel_capacity_one_witness :
    simulatorChannel.capacity = 1 ∧
    simulatorChannel.queue = [] ∧
    ((simulatorChannel.trySend ⟨AnyAddress.Seven 1, []⟩).map fun ch =>
      ch.queue.length) = some 1 :=
  ⟨rfl, rfl, by
    have := (simulator_channel_capacity_one.2 simulatorChannel
      { capacity := 1, queue := [⟨AnyAddress.Seven 1, []⟩] } ⟨AnyAddress.Seven 1, []⟩
      rfl rfl).2.1
    simp [SimChannel.trySend, simulatorChannel]⟩

lemma writeAt_length : ∀ (dst : List Nat) (k : Nat) (src : List Nat),
    (writeAt dst k src).length = dst.length
  | [], _, _ => rfl
  | _ :: _, 0, [] => rfl
  | _ :: dst, 0, _ :: src => by simp [writeAt, writeAt_length dst 0 src]
  | _ :: dst, k + 1, src => by simp [writeAt, writeAt_length dst k src]

lemma writeAt_nil_src : ∀ (dst : List Nat) (k : Nat), writeAt dst k [] = dst
  | [], _ => rfl
  | _ :: _, 0 => rfl
  | _ :: dst, k + 1 => by simp [writeAt, writeAt_nil_src dst k]

lemma writeAt_ge : ∀ (dst : List Nat) (k : Nat) (src : List Nat),
    dst.length ≤ k → writeAt dst k src = dst
  | [], _, _, _ => rfl
  | _ :: dst, k + 1, src, h => by
    simp only [writeAt]
    rw [writeAt_ge dst k src (by simpa using h)]
  | _ :: _, 0, _, h => by simp at h

lemma writeAt_zero : ∀ (dst src : List Nat),
    writeAt dst 0 src = src.take dst.length ++ dst.drop src.length
  | [], src => by simp [writeAt]
  | d :: dst, [] => by simp [writeAt]
  | _ :: dst, c :: src => by
    simp [writeAt, writeAt_zero dst src]

lemma writeAt_single : ∀ (dst : List Nat) (k : Nat) (c : Nat), k < dst.length →
    writeAt dst k [c] = dst.take k ++ c :: dst.drop (k + 1)
  | [], k, _, h => by simp at h
  | _ :: dst, 0, c, _ => by simp [writeAt, writeAt_nil_src dst 0]
  | d :: dst, k + 1, c, h => by
    simp only [writeAt, List.take_succ_cons, List.drop_succ_cons, List.cons_append]
    rw [writeAt_single dst k c (by simpa using h)]

lemma currentOp_explicit (addr : AnyAddress) (acts : List SimOp) (i : Nat) (flag : Bool) :
    SimTarget.currentOp ⟨some ⟨⟨addr, acts⟩, i⟩, flag⟩ = acts[i]? := rfl

lemma setCurrentOp_explicit (addr : AnyAddress) (acts : List SimOp) (i : Nat) (flag : Bool)
    (op : SimOp) :
    SimTarget.setCurrentOp ⟨some ⟨⟨addr, acts⟩, i⟩, flag⟩ op =
      ⟨some ⟨⟨addr, acts.set i op⟩, i⟩, flag⟩ := rfl

lemma next_explicit (addr : AnyAddress) (acts : List SimOp) (i : Nat) (flag : Bool) :
    SimTarget.next ⟨some ⟨⟨addr, acts⟩, i⟩, flag⟩ = some ⟨some ⟨⟨addr, acts⟩, i + 1⟩, flag⟩ := rfl

lemma OnRead.handle_part_live (addr : AnyAddress) (acts : List SimOp) (i : Nat) (flag : Bool)
    (B : List Nat) (j : Nat) (d : Bool) (buffer : List Nat)
    (hacts : acts[i]? = some (SimOp.Read B)) (hle : j ≤ B.length) (hne : buffer ≠ []) :
    OnRead.handle_part ⟨some ⟨⟨addr, acts⟩, i⟩, flag⟩ ⟨j, d⟩ buffer =
      if B.length - (j + min (B.length - j) buffer.length) = 0 then
        some (ReadResult.Complete (min (B.length - j) buffer.length),
          ⟨some ⟨⟨addr, acts.set i (SimOp.Read (writeAt B j buffer))⟩, i + 1⟩, flag⟩)
      else
        some (ReadResult.Partial ⟨j + min (B.length - j) buffer.length, true⟩,
          ⟨some ⟨⟨addr, acts.set i (SimOp.Read (writeAt B j buffer))⟩, i⟩, flag⟩) := by
  simp only [OnRead.handle_part, currentOp_explicit, hacts, if_neg hne,
    setCurrentOp_explicit, next_explicit, hle, if_true, if_pos hle]
  split <;> rfl

lemma readCompleteLoopFuel_fills :
    ∀ (rem : Nat) (addr : AnyAddress) (acts : List SimOp) (i : Nat) (flag : Bool)
      (B : List Nat) (j total ovc : Nat) (d : Bool),
      acts[i]? = some (SimOp.Read B) → j ≤ B.length → B.length - j = rem →
      readCompleteLoopFuel (rem + 1) ⟨some ⟨⟨addr, acts⟩, i⟩, flag⟩ ⟨j, d⟩ ovc total =
        some (total + rem,
          ⟨some ⟨⟨addr, acts.set i (SimOp.Read (B.take j ++ List.replicate rem ovc))⟩, i + 1⟩,
           flag⟩) := by
  intro rem
  induction rem with
  | zero =>
    intro addr acts i flag B j total ovc d hacts hle hrem
    have hj : j = B.length := by omega
    subst hj
    rw [readCompleteLoopFuel,
      OnRead.handle_part_live addr acts i flag B B.length d [ovc] hacts hle (by simp)]
    have hmin : min (B.length - B.length) [ovc].length = 0 := by simp
    rw [if_pos (by omega)]
    rw [writeAt_ge B B.length [ovc] (Nat.le_refl _)]
    simp [List.take_length]
  | succ r ih =>
    intro addr acts i flag B j total ovc d hacts hle hrem
    have hlt : j < B.length := by omega
    have hilt : i < acts.length := by
      by_contra hcon
      rw [List.getElem?_eq_none (by omega)] at hacts
      cases hacts
    rw [readCompleteLoopFuel,
      OnRead.handle_part_live addr acts i flag B j d [ovc] hacts hle (by simp)]
    have hmin : min (B.length - j) [ovc].length = 1 := by
      simp only [List.length_cons, List.length_nil]
      omega
    rw [hmin, writeAt_single B j ovc hlt]
    by_cases hr : r = 0
    · subst hr
      rw [if_pos (by omega)]
      have hdrop : B.drop (j + 1) = [] := List.drop_eq_nil_of_le (by omega)
      simp [hdrop, List.replicate]
    · rw [if_neg (by omega)]
      have hacts' : (acts.set i (SimOp.Read (B.take j ++ ovc :: B.drop (j + 1))))[i]? =
          some (SimOp.Read (B.take j ++ ovc :: B.drop (j + 1))) :=
        List.getElem?_set_self hilt
      have hlen' : (B.take j ++ ovc :: B.drop (j + 1)).length = B.length := by
        simp only [List.length_append, List.length_take, List.length_cons, List.length_drop]
        omega
      have := ih addr (acts.set i (SimOp.Read (B.take j ++ ovc :: B.drop (j + 1)))) i flag
        (B.take j ++ ovc :: B.drop (j + 1)) (j + 1) (total + 1) ovc true hacts'
        (by omega) (by omega)
      show readCompleteLoopFuel (r + 1)
          ⟨some ⟨⟨addr, acts.set i (SimOp.Read (B.take j ++ ovc :: B.drop (j + 1)))⟩, i⟩, flag⟩
          ⟨j + 1, true⟩ ovc (total + 1) = _
      rw [this, List.set_set]
      have htake : (B.take j ++ ovc :: B.drop (j + 1)).take (j + 1) = B.take j ++ [ovc] := by
        rw [List.take_append_eq_append_take]
        have h1 : (B.take j).length = j := by simp [List.length_take]; omega
        rw [h1]
        simp [Nat.add_sub_cancel_left]
      rw [htake]
      have hrep : B.take j ++ [ovc] ++ List.replicate r ovc =
          B.take j ++ List.replicate (r + 1) ovc := by
        rw [List.append_assoc]
        congr 1
      rw [hrep]
      congr 2
      omega

lemma readRemaining_explicit (addr : AnyAddress) (acts : List SimOp) (i : Nat) (flag : Bool)
    (B : List Nat) (j : Nat) (d : Bool) (hacts : acts[i]? = some (SimOp.Read B)) :
    SimTarget.readRemaining ⟨some ⟨⟨addr, acts⟩, i⟩, flag⟩ ⟨j, d⟩ = B.length - j := by
  simp [SimTarget.readRemaining, currentOp_explicit, hacts]

/-- C7: `handle_complete(bytes, ovc)` on a read handler transmits `bytes` in
order, then supplies the overrun character `ovc` for each further byte until
the master stops, and returns the total number of bytes the master consumed:
the read op's buffer ends up holding `take n (bytes ++ replicate _ ovc)` for a
length-`n` read and the call returns `n`. Concretely (scenario S4), a 5-byte
controller read served by `handle_complete([1,2,3,4], 0xFF)` makes the
controller receive `[1,2,3,4,0xFF]` and returns 5. -/
theorem read_handle_complete_overrun :
    (∀ (addr : AnyAddress) (acts : List SimOp) (i : Nat) (flag d : Bool)
       (B bytes : List Nat) (ovc : Nat),
      acts[i]? = some (SimOp.Read B) →
      OnRead.handle_complete ⟨some ⟨⟨addr, acts⟩, i⟩, flag⟩ ⟨0, d⟩ bytes ovc =
        some (B.length,
          ⟨some ⟨⟨addr, acts.set i (SimOp.Read
            ((bytes ++ List.replicate (B.length - bytes.length) ovc).take B.length))⟩, i + 1⟩,
           flag⟩)) ∧
    runScenario (AnyAddress.Seven 0x2a) [Operation.Read [0, 0, 0, 0, 0]]
        [Act.listen, Act.readComplete [1, 2, 3, 4] 0xFF, Act.listen] =
      some (Except.ok [Operation.Read [1, 2, 3, 4, 0xFF]],
        ⟨[], ⟨none, false⟩, Phase.idle⟩,
        [Event.yielded (Transaction.Read (AnyAddress.Seven 0x2a) ⟨0, false⟩),
         Event.readCompleteRes 5,
         Event.response (Except.ok ⟨AnyAddress.Seven 0x2a, [SimOp.Read [1, 2, 3, 4, 0xFF]]⟩),
         Event.yielded Transaction.Deselect]) := by
  constructor
  · intro addr acts i flag d B bytes ovc hacts
    have hilt : i < acts.length := by
      by_contra hcon
      rw [List.getElem?_eq_none (by omega)] at hacts
      cases hacts
    by_cases hnil : bytes = []
    · subst hnil
      rw [OnRead.handle_complete, read_handle_part_nil]
      show readCompleteLoopFuel
          (SimTarget.readRemaining ⟨some ⟨⟨addr, acts⟩, i⟩, flag⟩ ⟨0, d⟩ + 1)
          ⟨some ⟨⟨addr, acts⟩, i⟩, flag⟩ ⟨0, d⟩ ovc (List.length []) = _
      rw [readRemaining_explicit addr acts i flag B 0 d hacts, Nat.sub_zero,
        List.length_nil,
        readCompleteLoopFuel_fills B.length addr acts i flag B 0 0 ovc d hacts
          (Nat.zero_le _) (Nat.sub_zero _)]
      simp
    · rw [OnRead.handle_complete,
        OnRead.handle_part_live addr acts i flag B 0 d bytes hacts (Nat.zero_le _) hnil]
      by_cases hlong : B.length ≤ bytes.length
      · have hmin : min (B.length - 0) bytes.length = B.length := by omega
        rw [hmin, if_pos (by omega)]
        have hw : writeAt B 0 bytes = (bytes ++ List.replicate (B.length - bytes.length) ovc).take B.length := by
          rw [writeAt_zero, List.drop_eq_nil_of_le hlong,
            Nat.sub_eq_zero_of_le hlong]
          simp
        rw [hw]
      · have hmin : min (B.length - 0) bytes.length = bytes.length := by omega
        rw [hmin, if_neg (by omega)]
        have hw : writeAt B 0 bytes = bytes ++ B.drop bytes.length := by
          rw [writeAt_zero, List.take_of_length_le (by omega)]
        rw [hw]
        have hlenB : (bytes ++ B.drop bytes.length).length = B.length := by
          simp only [List.length_append, List.length_drop]
          omega
        have hacts' : (acts.set i (SimOp.Read (bytes ++ B.drop bytes.length)))[i]? =
            some (SimOp.Read (bytes ++ B.drop bytes.length)) :=
          List.getElem?_set_self hilt
        simp only [Nat.zero_add]
        show readCompleteLoopFuel
            (SimTarget.readRemaining
              ⟨some ⟨⟨addr, acts.set i (SimOp.Read (bytes ++ B.drop bytes.length))⟩, i⟩, flag⟩
              ⟨bytes.length, true⟩ + 1)
            ⟨some ⟨⟨addr, acts.set i (SimOp.Read (bytes ++ B.drop bytes.length))⟩, i⟩, flag⟩
            ⟨bytes.length, true⟩ ovc bytes.length = _
        rw [readRemaining_explicit addr _ i flag _ bytes.length true hacts', hlenB]
        rw [readCompleteLoopFuel_fills (B.length - bytes.length) addr _ i flag
          (bytes ++ B.drop bytes.length) bytes.length bytes.length ovc true hacts'
          (by omega) (by omega)]
        rw [List.set_set, List.take_left]
        have htot : bytes.length + (B.length - bytes.length) = B.length := by omega
        rw [htot]
        have htk : (bytes ++ List.replicate (B.length - bytes.length) ovc).take B.length =
            bytes ++ List.replicate (B.length - bytes.length) ovc := by
          refine List.take_of_length_le ?_
          simp only [List.length_append, List.length_replicate]
          omega
        rw [htk]
  · rfl

/-- Witness for C7 at a concrete live target state (a 3-byte read served with
two bytes and overrun character 9). -/
theorem read_handle_complete_overrun_witness :
    OnRead.handle_complete ⟨some ⟨⟨AnyAddress.Seven 4, [SimOp.Read [0, 0, 0]]⟩, 0⟩, false⟩
        ⟨0, false⟩ [7, 8] 9 =
      some (3, ⟨some ⟨⟨AnyAddress.Seven 4, [SimOp.Read [7, 8, 9]]⟩, 1⟩, false⟩) := by
  have := read_handle_complete_overrun.1 (AnyAddress.Seven 4) [SimOp.Read [0, 0, 0]] 0
    false false [0, 0, 0] [7, 8] 9 rfl
  simpa using this

/-- 1 when the deselect flag is set, else 0: the number of `Deselect` yields
still owed by the target. -/
def flagNat (s : SimTarget) : Nat :=
  if s.need_to_report_deselect then 1 else 0

/-- Whether an event is a `Deselect` yield. -/
def Event.isDeselect : Event → Bool
  | Event.yielded Transaction.Deselect => true
  | _ => false

/-- Whether an event is a responder resolution (a logical transaction boundary:
an `Ok` completion or a NACK). -/
def Event.isResponse : Event → Bool
  | Event.response _ => true
  | _ => false

/-- Number of `Deselect` yields in a trace. -/
def countDeselects (evs : List Event) : Nat :=
  (evs.filter Event.isDeselect).length

/-- Number of responder resolutions in a trace. -/
def countResponses (evs : List Event) : Nat :=
  (evs.filter Event.isResponse).length

lemma countDeselects_append (a b : List Event) :
    countDeselects (a ++ b) = countDeselects a + countDeselects b := by
  simp [countDeselects, List.filter_append]

lemma countResponses_append (a b : List Event) :
    countResponses (a ++ b) = countResponses a + countResponses b := by
  simp [countResponses, List.filter_append]

lemma countDeselects_responses (rs : List Response) :
    countDeselects (rs.map Event.response) = 0 := by
  simp [countDeselects, List.filter_map, Event.isDeselect, Function.comp]

lemma countResponses_responses (rs : List Response) :
    countResponses (rs.map Event.response) = rs.length := by
  simp [countResponses, List.filter_map, Event.isResponse, Function.comp]

lemma SimTarget.nak_spec (s : SimTarget) (src : NoAcknowledgeSource)
    (s' : SimTarget) (r : Response) (hn : s.nak src = some (s', r)) :
    s.need_to_report_deselect = false ∧ s' = ⟨none, true⟩ ∧
      r = Except.error (ErrorKind.noAcknowledge src) := by
  unfold SimTarget.nak at hn
  split at hn
  · cases hn
  · split at hn
    · cases hn
    · next hflag =>
      cases hn
      refine ⟨?_, rfl, rfl⟩
      simpa using hflag

lemma SimTarget.next_flag (s s' : SimTarget) (hn : s.next = some s') :
    s'.need_to_report_deselect = s.need_to_report_deselect := by
  unfold SimTarget.next at hn
  split at hn
  · cases hn
  · cases hn; rfl

lemma SimTarget.setCurrentOp_flag (s : SimTarget) (op : SimOp) :
    (s.setCurrentOp op).need_to_report_deselect = s.need_to_report_deselect := by
  unfold SimTarget.setCurrentOp
  split <;> rfl

lemma read_handle_part_flag (s : SimTarget) (h : OnRead) (buffer : List Nat)
    (res : ReadResult OnRead) (s' : SimTarget)
    (hp : OnRead.handle_part s h buffer = some (res, s')) :
    s'.need_to_report_deselect = s.need_to_report_deselect := by
  unfold OnRead.handle_part at hp
  split at hp
  · cases hp; rfl
  · split at hp
    · split at hp
      · dsimp only at hp
        split at hp
        · rw [Option.map_eq_some'] at hp
          obtain ⟨s2, hnext, heq⟩ := hp
          cases heq
          rw [SimTarget.next_flag _ _ hnext, SimTarget.setCurrentOp_flag]
        · cases hp
          rw [SimTarget.setCurrentOp_flag]
      · cases hp
    · cases hp

lemma write_handle_part_flag (s : SimTarget) (h : OnWrite) (buffer : List Nat)
    (res : WriteResult OnWrite) (buffer' : List Nat) (s' : SimTarget)
    (hp : OnWrite.handle_part s h buffer = some (res, buffer', s')) :
    s'.need_to_report_deselect = s.need_to_report_deselect := by
  unfold OnWrite.handle_part at hp
  split at hp
  · cases hp; rfl
  · split at hp
    · split at hp
      · dsimp only at hp
        split at hp
        · split at hp
          · cases hp; rfl
          · rw [Option.map_eq_some'] at hp
            obtain ⟨s2, hnext, heq⟩ := hp
            cases heq
            exact SimTarget.next_flag _ _ hnext
        · cases hp; rfl
      · cases hp
    · cases hp

lemma read_drop_balance (s : SimTarget) (h : OnRead) (s' : SimTarget)
    (rs : List Response) (hd : OnRead.drop s h = some (s', rs)) :
    flagNat s' = flagNat s + rs.length := by
  unfold OnRead.drop at hd
  split at hd
  · rw [Option.map_eq_some'] at hd
    obtain ⟨⟨s2, r⟩, hnak, heq⟩ := hd
    cases heq
    obtain ⟨hf, hs, _⟩ := SimTarget.nak_spec s _ _ _ hnak
    subst hs
    simp [flagNat, hf]
  · split at hd
    · split at hd
      · rw [Option.map_eq_some'] at hd
        obtain ⟨s2, hnext, heq⟩ := hd
        cases heq
        simp [flagNat, SimTarget.next_flag _ _ hnext, SimTarget.setCurrentOp_flag]
      · cases hd
    · cases hd

lemma write_drop_balance (s : SimTarget) (h : OnWrite) (s' : SimTarget)
    (rs : List Response) (hd : OnWrite.drop s h = some (s', rs)) :
    flagNat s' = flagNat s + rs.length := by
  unfold OnWrite.drop at hd
  split at hd <;>
  · rw [Option.map_eq_some'] at hd
    obtain ⟨⟨s2, r⟩, hnak, heq⟩ := hd
    cases heq
    obtain ⟨hf, hs, _⟩ := SimTarget.nak_spec s _ _ _ hnak
    subst hs
    simp [flagNat, hf]

lemma readCompleteLoopFuel_flag :
    ∀ (fuel : Nat) (s : SimTarget) (h : OnRead) (ovc total n : Nat) (s' : SimTarget),
      readCompleteLoopFuel fuel s h ovc total = some (n, s') →
      s'.need_to_report_deselect = s.need_to_report_deselect
  | 0, _, _, _, _, _, _, hl => by cases hl
  | fuel + 1, s, h, ovc, total, n, s', hl => by
    rw [readCompleteLoopFuel] at hl
    split at hl
    · cases hl
    · next heq =>
      cases hl
      exact read_handle_part_flag _ _ _ _ _ heq
    · next h' s2 heq =>
      have h1 := read_handle_part_flag _ _ _ _ _ heq
      have h2 := readCompleteLoopFuel_flag fuel s2 h' ovc (total + 1) n s' hl
      rw [h2, h1]

lemma OnRead.handle_complete_flag (s : SimTarget) (h : OnRead) (buffer : List Nat)
    (ovc n : Nat) (s' : SimTarget)
    (hc : OnRead.handle_complete s h buffer ovc = some (n, s')) :
    s'.need_to_report_deselect = s.need_to_report_deselect := by
  unfold OnRead.handle_complete at hc
  split at hc
  · cases hc
  · next heq =>
    cases hc
    exact read_handle_part_flag _ _ _ _ _ heq
  · next h' s2 heq =>
    rw [readCompleteLoopFuel_flag _ _ _ _ _ _ _ hc]
    exact read_handle_part_flag _ _ _ _ _ heq

lemma OnWrite.handle_complete_balance (s : SimTarget) (h : OnWrite) (buffer : List Nat)
    (n : Nat) (buffer' : List Nat) (s' : SimTarget) (rs : List Response)
    (hc : OnWrite.handle_complete s h buffer = some (n, buffer', s', rs)) :
    flagNat s' = flagNat s + rs.length := by
  unfold OnWrite.handle_complete at hc
  split at hc
  · cases hc
  · next heq =>
    cases hc
    simp [flagNat, write_handle_part_flag _ _ _ _ _ _ heq]
  · next h1 b1 s1 heq1 =>
    split at hc
    · cases hc
    · next heq2 =>
      cases hc
      simp [flagNat, write_handle_part_flag _ _ _ _ _ _ heq2,
        write_handle_part_flag _ _ _ _ _ _ heq1]
    · next h2 b2 s2 heq2 =>
      rw [Option.map_eq_some'] at hc
      obtain ⟨⟨s3, rs3⟩, hdrop, heq3⟩ := hc
      cases heq3
      rw [write_drop_balance _ _ _ _ hdrop]
      have e2 := write_handle_part_flag _ _ _ _ _ _ heq2
      have e1 := write_handle_part_flag _ _ _ _ _ _ heq1
      simp [flagNat, e2, e1]

lemma listenInspect_balance (s : SimTarget) (pending : List SimTransaction)
    (y : Transaction OnRead OnWrite) (s' : SimTarget) (pending' : List SimTransaction)
    (rs : List Response) (hflag : s.need_to_report_deselect = false)
    (hl : SimTarget.listenInspect s pending = some (y, s', pending', rs)) :
    countDeselects [Event.yielded y] + flagNat s' = rs.length + flagNat s := by
  unfold SimTarget.listenInspect at hl
  split at hl
  · cases hl
  · split at hl
    · split at hl
      · cases hl
        simp [countDeselects, Event.isDeselect, flagNat, hflag]
      · cases hl
    · cases hl
      simp [countDeselects, Event.isDeselect, flagNat, hflag]
    · cases hl
      simp [countDeselects, Event.isDeselect, flagNat, hflag]

lemma listen_balance (s : SimTarget) (pending : List SimTransaction)
    (y : Transaction OnRead OnWrite) (s' : SimTarget) (pending' : List SimTransaction)
    (rs : List Response)
    (hl : SimTarget.listen s pending = some (y, s', pending', rs)) :
    countDeselects [Event.yielded y] + flagNat s' = rs.length + flagNat s := by
  unfold SimTarget.listen at hl
  split at hl
  · next hflag =>
    cases hl
    simp [countDeselects, Event.isDeselect, flagNat, hflag]
  · next hflag =>
    have hf : s.need_to_report_deselect = false := by simpa using hflag
    split at hl
    · split at hl
      · cases hl
      · next t rest =>
        have := listenInspect_balance _ rest y s' pending' rs (by simpa using hf) hl
        simpa [flagNat, hf] using this
    · exact listenInspect_balance _ pending y s' pending' rs hf hl

lemma step_balance (c : Config) (a : Act) (c' : Config) (evs : List Event)
    (hs : step c a = some (c', evs)) :
    countDeselects evs + flagNat c'.target = countResponses evs + flagNat c.target := by
  obtain ⟨pending, target, phase⟩ := c
  cases a <;> cases phase <;> simp only [step] at hs <;>
    first
    | cases hs
    | skip
  case listen.idle =>
    rw [Option.map_eq_some'] at hs
    obtain ⟨⟨y, t', pending', rs⟩, hl, heq⟩ := hs
    cases heq
    have hb := listen_balance _ _ _ _ _ _ hl
    rw [countDeselects_append, countResponses_append, countDeselects_responses,
      countResponses_responses]
    have hyr : countResponses [Event.yielded y] = 0 := by
      cases y <;> rfl
    rw [hyr]
    simpa using hb
  case readPart.reading h =>
    rw [Option.map_eq_some'] at hs
    obtain ⟨⟨res, t'⟩, hp, heq⟩ := hs
    have hf := read_handle_part_flag _ _ _ _ _ hp
    cases res <;> cases heq <;>
      simp [countDeselects, countResponses, Event.isDeselect, Event.isResponse, flagNat, hf]
  case readComplete.reading h =>
    rw [Option.map_eq_some'] at hs
    obtain ⟨⟨n, t'⟩, hp, heq⟩ := hs
    cases heq
    have hf := OnRead.handle_complete_flag _ _ _ _ _ _ hp
    simp [countDeselects, countResponses, Event.isDeselect, Event.isResponse, flagNat, hf]
  case writePart.writing h =>
    rw [Option.map_eq_some'] at hs
    obtain ⟨⟨res, buffer', t'⟩, hp, heq⟩ := hs
    have hf := write_handle_part_flag _ _ _ _ _ _ hp
    cases res <;> cases heq <;>
      simp [countDeselects, countResponses, Event.isDeselect, Event.isResponse, flagNat, hf]
  case writeComplete.writing h =>
    rw [Option.map_eq_some'] at hs
    obtain ⟨⟨n, buffer', t', rs⟩, hp, heq⟩ := hs
    cases heq
    have hb := OnWrite.handle_complete_balance _ _ _ _ _ _ _ hp
    rw [countDeselects_append, countResponses_append, countDeselects_responses,
      countResponses_responses]
    have h1 : countDeselects [Event.writeCompleteRes n buffer'] = 0 := rfl
    have h2 : countResponses [Event.writeCompleteRes n buffer'] = 0 := rfl
    rw [h1, h2]
    dsimp only
    omega
  case dropHandler.reading h =>
    rw [Option.map_eq_some'] at hs
    obtain ⟨⟨t', rs⟩, hd, heq⟩ := hs
    cases heq
    have hb := read_drop_balance _ _ _ _ hd
    rw [countDeselects_responses, countResponses_responses]
    dsimp only
    omega
  case dropHandler.writing h =>
    rw [Option.map_eq_some'] at hs
    obtain ⟨⟨t', rs⟩, hd, heq⟩ := hs
    cases heq
    have hb := write_drop_balance _ _ _ _ hd
    rw [countDeselects_responses, countResponses_responses]
    dsimp only
    omega


lemma run_balance : ∀ (acts : List Act) (c c' : Config) (evs : List Event),
    run c acts = some (c', evs) →
    countDeselects evs + flagNat c'.target = countResponses evs + flagNat c.target
  | [], c, c', evs, hr => by
    cases hr
    simp [countDeselects, countResponses]
  | a :: acts, c, c', evs, hr => by
    unfold run at hr
    split at hr
    · cases hr
    · next c₁ evs₁ hstep =>
      split at hr
      · cases hr
      · next c₂ evs₂ hrun =>
        cases hr
        have h1 := step_balance c a c₁ evs₁ hstep
        have h2 := run_balance acts c₁ c' evs₂ hrun
        rw [countDeselects_append, countResponses_append]
        omega

/-- C2 (Deselect discipline): over every sequence of target-side actions (any
interleaving of listens, handler calls and handler drops, driven by any queue
of controller transactions), the number of `Deselect` yields plus the
still-pending deselect flag equals the number of responder resolutions — each
logical boundary (a NACK or the `Ok` completion of a transaction's final op)
is answered by exactly one `Deselect`, never zero and never two. Moreover from
any state with the flag set (i.e. right after a NACK), the next `listen`
yields `Deselect` immediately: it clears the flag, consumes no pending
transaction, emits no response, and exposes no handler. -/
theorem deselect_discipline :
    (∀ (c c' : Config) (acts : List Act) (evs : List Event),
      run c acts = some (c', evs) →
      countDeselects evs + flagNat c'.target = countResponses evs + flagNat c.target) ∧
    (∀ c : Config, c.target.need_to_report_deselect = true → c.phase = Phase.idle →
      step c Act.listen =
        some ({ pending := c.pending,
                target := ⟨c.target.current_transaction, false⟩,
                phase := Phase.idle },
              [Event.yielded Transaction.Deselect])) := by
  constructor
  · intro c c' acts evs hr
    exact run_balance acts c c' evs hr
  · intro c hflag hphase
    obtain ⟨pending, target, phase⟩ := c
    obtain ⟨cur, need⟩ := target
    simp only at hflag hphase
    subst hflag
    subst hphase
    rfl

/-- Witness for C2: a concrete address-NACK run (listen, drop the handler,
listen) balances one `Deselect` against one NACK response, and a concrete
flag-set state yields `Deselect` on its next listen. -/
theorem deselect_discipline_witness :
    (run (initConfig [⟨AnyAddress.Seven 1, [SimOp.Read [0]]⟩])
        [Act.listen, Act.dropHandler, Act.listen] =
      some (⟨[], ⟨none, false⟩, Phase.idle⟩,
        [Event.yielded (Transaction.Read (AnyAddress.Seven 1) ⟨0, false⟩),
         Event.response (Except.error (ErrorKind.noAcknowledge NoAcknowledgeSource.Address)),
         Event.yielded Transaction.Deselect]) ∧
      countDeselects
          [Event.yielded (Transaction.Read (AnyAddress.Seven 1) ⟨0, false⟩),
           Event.response (Except.error (ErrorKind.noAcknowledge NoAcknowledgeSource.Address)),
           Event.yielded Transaction.Deselect] +
        flagNat (⟨[], ⟨none, false⟩, Phase.idle⟩ : Config).target =
      countResponses
          [Event.yielded (Transaction.Read (AnyAddress.Seven 1) ⟨0, false⟩),
           Event.response (Except.error (ErrorKind.noAcknowledge NoAcknowledgeSource.Address)),
           Event.yielded Transaction.Deselect] +
        flagNat (initConfig [⟨AnyAddress.Seven 1, [SimOp.Read [0]]⟩]).target) ∧
    ((⟨[], ⟨none, true⟩, Phase.idle⟩ : Config).target.need_to_report_deselect = true ∧
      step ⟨[], ⟨none, true⟩, Phase.idle⟩ Act.listen =
        some (⟨[], ⟨none, false⟩, Phase.idle⟩, [Event.yielded Transaction.Deselect])) :=
  ⟨⟨by rfl,
    deselect_discipline.1 (initConfig [⟨AnyAddress.Seven 1, [SimOp.Read [0]]⟩])
      ⟨[], ⟨none, false⟩, Phase.idle⟩ [Act.listen, Act.dropHandler, Act.listen]
      [Event.yielded (Transaction.Read (AnyAddress.Seven 1) ⟨0, false⟩),
       Event.response (Except.error (ErrorKind.noAcknowledge NoAcknowledgeSource.Address)),
       Event.yielded Transaction.Deselect] (by rfl)⟩,
   ⟨rfl, deselect_discipline.2 ⟨[], ⟨none, true⟩, Phase.idle⟩ rfl rfl⟩⟩
